import Mathlib

/-!
Verification of the nextship deployment orchestrator core: the transfer
method selector and SFTP bulk copy (src/lib/rsync.ts), the PM2 supervisor
reconciliation and verification logic (src/lib/pm2.ts), and the pipeline
orchestration (src/commands/restart.ts, src/commands/ship.ts).

Remote interaction is embedded by explicit oracles: `exec` maps a command
string to the captured {stdout, stderr, exit code}; `JSON.parse` of remote
output is an oracle returning `Option` (none models a parse exception);
ordering of issued remote commands is returned as an explicit trace.
Wall-clock durations and terminal output (spinners, logging) are not part
of the model.
-/

namespace Nextship

/-- Result of one remote command execution, as captured by the ssh exec
wrapper: stdout, stderr and exit code. -/
structure ExecResult where
  stdout : String
  stderr : String
  code : Int
deriving Repr, DecidableEq

/-- JavaScript string truthiness for `string | undefined` fields:
`undefined` and the empty string are falsy. -/
def truthyStr : Option String → Bool
  | none => false
  | some s => s != ""

/-- JavaScript `a || b` on strings: the empty string is falsy. -/
def jsOr (a b : String) : String :=
  if a = "" then b else a

/-- Boolean substring test, mirroring JavaScript `String.includes`. -/
def strIncludes (s pat : String) : Bool :=
  decide (pat.data <:+: s.data)

/-- Boolean prefix test on strings. -/
def strStarts (s pat : String) : Bool :=
  decide (pat.data <+: s.data)

/-! ## rsync.ts — transfer method selection and SFTP bulk copy -/

/-- SSH connection settings (config/schema.ts `sshConfigSchema`): exactly
the credential fields relevant to transfer selection are modelled. -/
structure SSHConfig where
  host : String
  user : String
  port : Nat
  privateKeyPath : Option String := none
  privateKey : Option String := none
  password : Option String := none
deriving Repr, DecidableEq

/-- The three execution paths of `upload` in rsync.ts: rsync with key-file
auth, rsync bridged through sshpass, or the SFTP fallback. -/
inductive UploadMethod where
  | rsyncKey
  | rsyncSshpass
  | sftp
deriving Repr, DecidableEq

/-- Branch selection of `upload` (rsync.ts lines 378-408):
`hasKeyPath = Boolean(privateKeyPath)`,
`isPasswordAuth = Boolean(password) && !privateKey && !hasKeyPath`;
first branch requires useRsync, rsync available and a key path; second
requires useRsync, rsync available, password-only auth and sshpass; else
SFTP. -/
def selectUploadMethod (useRsync rsyncAvailable sshpassAvailable : Bool)
    (ssh : SSHConfig) : UploadMethod :=
  let hasKeyPath := truthyStr ssh.privateKeyPath
  let isPasswordAuth := truthyStr ssh.password && !truthyStr ssh.privateKey && !hasKeyPath
  if useRsync && rsyncAvailable && hasKeyPath then .rsyncKey
  else if useRsync && rsyncAvailable && isPasswordAuth && sshpassAvailable then .rsyncSshpass
  else .sftp

/-- Modelled from the spec: the ordered selection rule of §4.2 / P2 as the
spec words it, a pure function of the four booleans {delta-sync tool
available, key-path present, password present, helper tool available}
plus the delta-sync preference flag. Used only to compare the selector
found in the code against the rule given by the spec. -/
def specSelectMethod (toolAvail keyPath password helper preferDelta : Bool) : UploadMethod :=
  if keyPath && preferDelta && toolAvail then .rsyncKey
  else if toolAvail && password && helper && preferDelta then .rsyncSshpass
  else .sftp

/-- Outcome record of a transfer (rsync.ts `UploadResult`). -/
structure UploadResult where
  method : String
  filesTransferred : Nat
  bytesTransferred : Option Nat := none
  success : Bool
  error : Option String := none
deriving Repr, DecidableEq

/-- Outcome of establishing the SFTP session in `uploadWithSFTP`: the ssh2
client emitted an error, the sftp subsystem request failed, or the session
is ready. -/
inductive SftpSession where
  | connError (msg : String)
  | sftpError (msg : String)
  | ready
deriving Repr, DecidableEq

/-- The sequential `uploadNext` loop of `uploadWithSFTP`: one file per
index; `writeOk i` tells whether the write stream of file i emitted `close`
(counted) or `error` (skipped, loop continues). Directory creation errors
are ignored by the source (`sftp.mkdir` callback discards its error), so
they surface only through the subsequent write outcome. -/
def sftpLoop (writeOk : Nat → Bool) : Nat → Nat → Nat → UploadResult
  | _, transferred, 0 =>
    { method := "sftp", filesTransferred := transferred, success := true }
  | i, transferred, n + 1 =>
    sftpLoop writeOk (i + 1) (if writeOk i then transferred + 1 else transferred) n

/-- `uploadWithSFTP` (rsync.ts lines 214-373): fails before connecting when
the computed file list is empty; fails when the session cannot be
established; otherwise runs the per-file loop and reports success.
`files` is the `filesToUpload` list computed from the include patterns
(local path, remote path pairs). -/
def uploadWithSFTP (files : List (String × String)) (session : SftpSession)
    (writeOk : Nat → Bool) : UploadResult :=
  if files.isEmpty then
    { method := "sftp", filesTransferred := 0, success := false,
      error := some "No files to upload" }
  else
    match session with
    | .connError m =>
      { method := "sftp", filesTransferred := 0, success := false, error := some m }
    | .sftpError m =>
      { method := "sftp", filesTransferred := 0, success := false, error := some m }
    | .ready => sftpLoop writeOk 0 0 files.length

/-! ## pm2.ts — shell command construction and supervisor reconciliation -/

/-- Character class of the escaping regex in `escapeShellValue`
(pm2.ts line 9): ASCII whitespace together with the characters
&, |, <, >, ^, double quote, single quote, backtick, $ and backslash. -/
def shellSignificant (c : Char) : Bool :=
  c = ' ' || c = '\t' || c = '\n' || c = '\r' ||
  c = Char.ofNat 11 || c = Char.ofNat 12 ||
  c = '&' || c = '|' || c = '<' || c = '>' || c = '^' ||
  c = '"' || c = Char.ofNat 39 || c = Char.ofNat 96 ||
  c = '$' || c = '\\'

/-- Replacement step of pm2.ts line 11: every double quote becomes a
backslash-quote pair. -/
def escQuotes (v : String) : String :=
  String.mk (v.data.foldr (fun c acc => if c = '"' then '\\' :: '"' :: acc else c :: acc) [])

/-- `escapeShellValue` (pm2.ts lines 8-14): values containing a
shell-significant character are wrapped in double quotes with inner double
quotes backslash-escaped; other values pass through unchanged. -/
def escapeShellValue (value : String) : String :=
  if value.data.any shellSignificant then
    "\"" ++ escQuotes value ++ "\""
  else value

/-- Separator join with JavaScript `Array.join` semantics. -/
def joinSep (sep : String) : List String → String
  | [] => ""
  | [x] => x
  | x :: xs => x ++ sep ++ joinSep sep xs

/-- `buildEnvPrefix` (pm2.ts lines 22-35): empty/absent env yields "";
Windows targets render `set K=v && set K=v && `, Unix targets render
`K=v K=v `; every value goes through `escapeShellValue`. -/
def envPrefixOf (env : Option (List (String × String))) (isWindows : Bool) : String :=
  match env with
  | none => ""
  | some entries =>
    if entries.isEmpty then ""
    else if isWindows then
      joinSep " && "
        (entries.map (fun p => "set " ++ p.1 ++ "=" ++ escapeShellValue p.2)) ++ " && "
    else
      joinSep " "
        (entries.map (fun p => p.1 ++ "=" ++ escapeShellValue p.2)) ++ " "

/-- The `ecosystem` config value: a boolean or a string (zod union in
config/schema.ts). -/
inductive EcosystemSetting where
  | bool (b : Bool)
  | str (s : String)
deriving Repr, DecidableEq

/-- PM2 section of the configuration (config/schema.ts `pm2ConfigSchema`). -/
structure PM2Config where
  appName : String
  ecosystem : EcosystemSetting := .bool true
  reload : Bool := true
  port : Option Nat := none
  env : Option (List (String × String)) := none
deriving Repr

/-- Result record of one PM2 operation (pm2.ts `PM2Result`). -/
structure PM2Result where
  success : Bool
  status : Option String := none
  error : Option String := none
deriving Repr, DecidableEq

/-- Global `/\//g` replacement with backslashes. -/
def winSlashes (s : String) : String :=
  String.mk (s.data.map (fun c => if c = '/' then '\\' else c))

/-- Lowercase ASCII letter test, the `[a-z]` class of the WSL drive regex. -/
def isLowerAZ (c : Char) : Bool :=
  97 ≤ c.toNat && c.toNat ≤ 122

/-- Path conversion of pm2.ts line 64:
`remotePath.replace(/^\/mnt\/([a-z])\//, "$1:\\\\").replace(/\//g, "\\")` —
a leading `/mnt/<drive>/` becomes `<drive>:\\` and every remaining slash
becomes a backslash. -/
def toWinPath (p : String) : String :=
  match p.data with
  | '/' :: 'm' :: 'n' :: 't' :: '/' :: d :: '/' :: rest =>
    if isLowerAZ d then
      winSlashes (String.mk (d :: ':' :: '\\' :: '\\' :: rest))
    else winSlashes p
  | _ => winSlashes p

/-- Windows-target detection (pm2.ts line 62):
`remotePath?.startsWith("/mnt/") ?? false`. -/
def isWindowsPath : Option String → Bool
  | none => false
  | some p => strStarts p "/mnt/"

/-- `const winPath = remotePath ? remotePath.replace(...) : ""` with JS
string truthiness. -/
def winPathOf : Option String → String
  | none => ""
  | some p => if p = "" then "" else toWinPath p

/-- Key update with JavaScript object-spread semantics on an association
list: an existing key keeps its position and gets the new value, a new key
is appended. -/
def setKey (l : List (String × String)) (k v : String) : List (String × String) :=
  if l.any (fun p => p.1 = k) then
    l.map (fun p => if p.1 = k then (k, v) else p)
  else l ++ [(k, v)]

/-- JavaScript `{...base, ...add}` on association lists: entries of `add`
are merged into `base` left to right with `setKey`. -/
def jsSpread (base add : List (String × String)) : List (String × String) :=
  add.foldl (fun acc p => setKey acc p.1 p.2) base

/-- First-binding lookup on an association list (a JS object read). -/
def envLookup (l : List (String × String)) (k : String) : Option String :=
  (l.find? (fun p => p.1 = k)).map (fun p => p.2)

/-- Standalone-start env merge (pm2.ts line 120):
`port ? { PORT: String(port), ...env } : env` with JS number truthiness
(0 is falsy) and object-spread override semantics. -/
def envWithPort (port : Option Nat) (env : Option (List (String × String))) :
    Option (List (String × String)) :=
  match port with
  | some p =>
    if p = 0 then env
    else some (jsSpread [("PORT", toString p)] (env.getD []))
  | none => env

/-- Ecosystem auto-detect probe command (pm2.ts line 81). -/
def ecoCheckCmd (winPath : String) : String :=
  "if exist \"" ++ winPath ++ "\\ecosystem.config.js\" echo EXISTS"

/-- Reload/restart command for an existing app (pm2.ts line 105). -/
def reloadCmd (envPre : String) (reload : Bool) (appName : String) : String :=
  envPre ++ "pm2 " ++ (if reload then "reload" else "restart") ++ " " ++
    appName ++ " --update-env"

/-- Ecosystem-file start command (pm2.ts line 117). -/
def ecosystemStartCmd (winPath envPre ecosystemFile appName : String) : String :=
  "cd /d \"" ++ winPath ++ "\" && " ++ envPre ++
    ("pm2 start " ++ (ecosystemFile ++ (" --only " ++ appName)))

/-- Standalone start command (pm2.ts line 122). -/
def standaloneStartCmd (winPath envPre appName : String) : String :=
  "cd /d \"" ++ winPath ++ "\" && " ++ envPre ++
    ("pm2 start " ++ (".next\\standalone\\server.js --name " ++ appName))

/-- Message returned when the app is absent and no remotePath was given
(pm2.ts line 111). -/
def notFoundMsg (appName : String) : String :=
  ("App \"" ++ appName ++ "\" not found and ") ++
    ("no remotePath provided" ++ " to start it")

/-- Ecosystem-file resolution (pm2.ts lines 71-85), returning the resolved
file (`string | null`, with `null` as `none`) and the probe commands
issued: `false` disables it, a non-"auto" string is used verbatim, and
`true`/"auto" probe the remote filesystem when a truthy remotePath exists. -/
def resolveEcosystemFile (exec : String → ExecResult) (eco : EcosystemSetting)
    (remotePath : Option String) (winPath : String) : Option String × List String :=
  match eco with
  | .bool false => (none, [])
  | .str s =>
    if s = "auto" then
      if truthyStr remotePath then
        (if strIncludes (exec (ecoCheckCmd winPath)).stdout "EXISTS" then
            some "ecosystem.config.js" else none,
          [ecoCheckCmd winPath])
      else (none, [])
    else (some s, [])
  | .bool true =>
    if truthyStr remotePath then
      (if strIncludes (exec (ecoCheckCmd winPath)).stdout "EXISTS" then
          some "ecosystem.config.js" else none,
        [ecoCheckCmd winPath])
    else (none, [])

/-- Outcome of one `reloadApp` invocation together with the ordered trace
of every command passed to `conn.exec`. -/
structure ReloadOutcome where
  result : PM2Result
  commands : List String
deriving Repr

/-- Tail of `reloadApp` (pm2.ts lines 126-143): run the chosen command;
nonzero exit surfaces `stderr || stdout || "PM2 command failed with code
N"`; on success run `pm2 save` (result ignored) and report the status. -/
def finishRun (exec : String → ExecResult) (priorCmds : List String)
    (command : String) (successStatus : String) : ReloadOutcome :=
  let result := exec command
  if result.code ≠ 0 then
    { result :=
        { success := false,
          error := some (jsOr result.stderr (jsOr result.stdout
            ("PM2 command failed with code " ++ toString result.code))) },
      commands := priorCmds ++ [command] }
  else
    { result := { success := true, status := some successStatus },
      commands := priorCmds ++ [command, "pm2 save"] }

/-- `reloadApp` (pm2.ts lines 50-152). `exec` is the command runner of
the remote session; `parseNames` models `JSON.parse` applied to `pm2 jlist`
output, yielding the process names on success and `none` on a parse
exception. The returned trace lists every executed command in order. -/
def reloadApp (exec : String → ExecResult) (parseNames : String → Option (List String))
    (cfg : PM2Config) (remotePath : Option String) : ReloadOutcome :=
  let isWindows := isWindowsPath remotePath
  let winPath := winPathOf remotePath
  let envPre := envPrefixOf cfg.env isWindows
  let eco := resolveEcosystemFile exec cfg.ecosystem remotePath winPath
  let ecosystemFile := eco.1
  let priorCmds := eco.2 ++ ["pm2 jlist"]
  let checkResult := exec "pm2 jlist"
  let appExists :=
    decide (checkResult.code = 0) &&
      (match parseNames checkResult.stdout with
       | some names => names.contains cfg.appName
       | none => false)
  if appExists then
    finishRun exec priorCmds (reloadCmd envPre cfg.reload cfg.appName)
      "PM2 reload completed"
  else if ¬ truthyStr remotePath then
    { result := { success := false, error := some (notFoundMsg cfg.appName) },
      commands := priorCmds }
  else
    let startedStatus :=
      if truthyStr ecosystemFile then "PM2 app started (using ecosystem.config.js)"
      else "PM2 app started"
    match ecosystemFile with
    | some f =>
      if f ≠ "" then
        finishRun exec priorCmds (ecosystemStartCmd winPath envPre f cfg.appName)
          startedStatus
      else
        finishRun exec priorCmds
          (standaloneStartCmd winPath (envPrefixOf (envWithPort cfg.port cfg.env) isWindows)
            cfg.appName)
          startedStatus
    | none =>
      finishRun exec priorCmds
        (standaloneStartCmd winPath (envPrefixOf (envWithPort cfg.port cfg.env) isWindows)
          cfg.appName)
        startedStatus

/-- `getAppStatus` (pm2.ts lines 157-207): query `pm2 jlist`, surface
`stderr || "Failed to get PM2 status"` on nonzero exit, report a parse
failure, a missing app, or the runtime status of the app. `parseTable` models
`JSON.parse` yielding (name, status) pairs. -/
def getAppStatus (exec : String → ExecResult)
    (parseTable : String → Option (List (String × String))) (appName : String) : PM2Result :=
  let result := exec "pm2 jlist"
  if result.code ≠ 0 then
    { success := false, error := some (jsOr result.stderr "Failed to get PM2 status") }
  else
    match parseTable result.stdout with
    | none => { success := false, error := some "Failed to parse PM2 output" }
    | some apps =>
      match apps.find? (fun a => a.1 = appName) with
      | none =>
        { success := false, error := some ("App \"" ++ appName ++ "\" not found in PM2") }
      | some app => { success := true, status := some app.2 }

/-- Success test of one verification poll (pm2.ts line 221):
`status.success && status.status === "online"`. -/
def isOnline (st : PM2Result) : Bool :=
  st.success && st.status == some "online"

/-- Outcome of `verifyAppRunning` together with the number of status polls
performed and the number of fixed delays slept between polls. -/
structure VerifyOutcome where
  result : PM2Result
  polls : Nat
  delays : Nat
deriving Repr, DecidableEq

/-- The retry loop of `verifyAppRunning` (pm2.ts lines 218-237): at poll
index `i` with `fuel` iterations left, poll `getStatus i`; return success
on "online"; otherwise sleep once when further retries remain and
continue; exhausted fuel yields the bounded-retry failure message. -/
def verifyLoop (getStatus : Nat → PM2Result) (retries : Nat) : Nat → Nat → VerifyOutcome
  | _, 0 =>
    { result :=
        { success := false,
          error := some ("Application did not start within " ++ toString retries ++ " retries") },
      polls := 0, delays := 0 }
  | i, fuel + 1 =>
    let st := getStatus i
    if isOnline st then
      { result := { success := true, status := some "Application is running" },
        polls := 1, delays := 0 }
    else
      let rest := verifyLoop getStatus retries (i + 1) fuel
      { result := rest.result, polls := rest.polls + 1,
        delays := rest.delays + (if 0 < fuel then 1 else 0) }

/-- `verifyAppRunning` (pm2.ts lines 212-238): up to `retries` polls of
`getAppStatus`, with one `delayMs` sleep between consecutive polls.
`getStatus i` is the status result of poll `i` (each poll opens a fresh
connection, so results may differ across polls); the total time slept is
`delays * delayMs`. -/
def verifyAppRunning (getStatus : Nat → PM2Result) (retries : Nat)
    (_delayMs : Nat) : VerifyOutcome :=
  verifyLoop getStatus retries 0 retries

/-! ## restart.ts and ship.ts — pipeline orchestration -/

/-- Per-step outcome recorded by the orchestrator (success flag and
surfaced error; durations are wall-clock and are not modelled). -/
structure StepOutcome where
  success : Bool
  error : Option String := none
deriving Repr, DecidableEq

/-- `runRestart` (restart.ts lines 14-69): run `reloadApp`; on failure
surface its error; on success run `verifyAppRunning` with the default
budget (retries = 3, delay = 2000 ms) and report success regardless of the
verification outcome (a verification failure only emits a warning). -/
def runRestart (exec : String → ExecResult) (parseNames : String → Option (List String))
    (getStatus : Nat → PM2Result) (cfg : PM2Config) (remotePath : Option String) :
    StepOutcome :=
  let o := reloadApp exec parseNames cfg remotePath
  if ¬ o.result.success then
    { success := false, error := o.result.error }
  else
    let v := verifyAppRunning getStatus 3 2000
    if ¬ v.result.success then { success := true }
    else { success := true }

/-- The per-step records of a `runShip` result (`ShipResult.steps`):
`none` means the step never ran. -/
structure ShipSteps where
  build : Option StepOutcome := none
  upload : Option StepOutcome := none
  prepare : Option StepOutcome := none
  restart : Option StepOutcome := none
deriving Repr, DecidableEq

/-- Aggregate result of one pipeline run (`ShipResult`). -/
structure ShipResult where
  success : Bool
  steps : ShipSteps
  error : Option String := none
deriving Repr, DecidableEq

/-- `runShip` (ship.ts lines 29-147): dry-run short-circuits with empty
steps; otherwise Build, Upload, the conditional Prepare (standalone builds
not prepared locally), and Restart run in order, each recorded when it
runs, the pipeline returning at the first failing step with the error of
that step. Step results are supplied as oracles; the returned list names the
steps invoked, in order. -/
def runShip (dryRun standalone prepareLocally : Bool)
    (buildRes uploadRes prepareRes restartRes : StepOutcome) :
    ShipResult × List String :=
  if dryRun then
    ({ success := true, steps := {} }, [])
  else
    let steps1 : ShipSteps := { build := some buildRes }
    if ¬ buildRes.success then
      ({ success := false, steps := steps1, error := buildRes.error }, ["build"])
    else
      let steps2 : ShipSteps := { steps1 with upload := some uploadRes }
      if ¬ uploadRes.success then
        ({ success := false, steps := steps2, error := uploadRes.error },
          ["build", "upload"])
      else if standalone && !prepareLocally then
        let steps3 : ShipSteps := { steps2 with prepare := some prepareRes }
        if ¬ prepareRes.success then
          ({ success := false, steps := steps3, error := prepareRes.error },
            ["build", "upload", "prepare"])
        else
          let steps4 : ShipSteps := { steps3 with restart := some restartRes }
          if ¬ restartRes.success then
            ({ success := false, steps := steps4, error := restartRes.error },
              ["build", "upload", "prepare", "restart"])
          else
            ({ success := true, steps := steps4 },
              ["build", "upload", "prepare", "restart"])
      else
        let steps4 : ShipSteps := { steps2 with restart := some restartRes }
        if ¬ restartRes.success then
          ({ success := false, steps := steps4, error := restartRes.error },
            ["build", "upload", "restart"])
        else
          ({ success := true, steps := steps4 }, ["build", "upload", "restart"])

/-! ## Helper lemmas -/

theorem strIncludes_iff {s pat : String} : strIncludes s pat = true ↔ pat.data <:+: s.data := by
  simp [strIncludes]

theorem strIncludes_append_right {b pat : String} (a : String)
    (h : strIncludes b pat = true) : strIncludes (a ++ b) pat = true := by
  rw [strIncludes_iff] at h ⊢
  rw [String.data_append]
  exact h.trans (List.suffix_append a.data b.data).isInfix

theorem strIncludes_append_left {a pat : String} (b : String)
    (h : strIncludes a pat = true) : strIncludes (a ++ b) pat = true := by
  rw [strIncludes_iff] at h ⊢
  rw [String.data_append]
  exact h.trans (List.prefix_append a.data b.data).isInfix

theorem strIncludes_self_append (pat b : String) : strIncludes (pat ++ b) pat = true := by
  rw [strIncludes_iff, String.data_append]
  exact (List.prefix_append pat.data b.data).isInfix

theorem strStarts_self_append (pat b : String) : strStarts (pat ++ b) pat = true := by
  simp only [strStarts, String.data_append, decide_eq_true_eq]
  exact List.prefix_append pat.data b.data

theorem strStarts_append_of (a b pat : String) (h : strStarts a pat = true) :
    strStarts (a ++ b) pat = true := by
  simp only [strStarts, String.data_append, decide_eq_true_eq] at h ⊢
  exact h.trans (List.prefix_append a.data b.data)

theorem envLookup_append (l₁ l₂ : List (String × String)) (k : String) :
    envLookup (l₁ ++ l₂) k = (envLookup l₁ k).or (envLookup l₂ k) := by
  simp [envLookup, List.find?_append, Option.or]
  cases List.find? (fun p => decide (p.1 = k)) l₁ <;> simp

theorem envLookup_eq_none_of_not_mem {l : List (String × String)} {k : String}
    (h : k ∉ l.map Prod.fst) : envLookup l k = none := by
  have hfind : List.find? (fun p => decide (p.1 = k)) l = none := by
    rw [List.find?_eq_none]
    intro x hx
    simp only [decide_eq_true_eq]
    intro he
    exact h (List.mem_map.mpr ⟨x, hx, he⟩)
  unfold envLookup
  rw [hfind]
  rfl

theorem envLookup_nil (k : String) : envLookup [] k = none := rfl

theorem envLookup_cons (p : String × String) (t : List (String × String)) (k : String) :
    envLookup (p :: t) k = if p.1 = k then some p.2 else envLookup t k := by
  by_cases h : p.1 = k <;> simp [envLookup, List.find?_cons, h]

theorem envLookup_singleton_self (k v : String) : envLookup [(k, v)] k = some v := by
  rw [envLookup_cons]
  simp

theorem envLookup_singleton_other (k v k' : String) (h : k' ≠ k) :
    envLookup [(k, v)] k' = none := by
  rw [envLookup_cons, if_neg (fun he => h he.symm), envLookup_nil]

theorem envLookup_map_self (l : List (String × String)) (k v : String)
    (ha : l.any (fun p => p.1 = k) = true) :
    envLookup (l.map (fun p => if p.1 = k then (k, v) else p)) k = some v := by
  induction l with
  | nil => simp at ha
  | cons p t ih =>
    simp only [List.map_cons]
    by_cases hp : p.1 = k
    · rw [if_pos hp, envLookup_cons]
      simp
    · rw [if_neg hp, envLookup_cons, if_neg hp]
      have ha' : t.any (fun p => p.1 = k) = true := by
        simpa [List.any_cons, hp] using ha
      exact ih ha'

theorem envLookup_map_other (l : List (String × String)) (k v k' : String)
    (h : k' ≠ k) :
    envLookup (l.map (fun p => if p.1 = k then (k, v) else p)) k' = envLookup l k' := by
  induction l with
  | nil => simp
  | cons p t ih =>
    simp only [List.map_cons]
    by_cases hp : p.1 = k
    · have h1 : ¬((k, v).1 = k') := fun he => h he.symm
      have h2 : ¬(p.1 = k') := fun he => h (he ▸ hp)
      rw [if_pos hp, envLookup_cons, if_neg h1, envLookup_cons, if_neg h2]
      exact ih
    · rw [if_neg hp, envLookup_cons, envLookup_cons]
      by_cases hpk : p.1 = k'
      · rw [if_pos hpk, if_pos hpk]
      · rw [if_neg hpk, if_neg hpk]
        exact ih

theorem envLookup_setKey_self (l : List (String × String)) (k v : String) :
    envLookup (setKey l k v) k = some v := by
  unfold setKey
  by_cases ha : l.any (fun p => p.1 = k) = true
  · rw [if_pos ha]
    exact envLookup_map_self l k v ha
  · rw [if_neg ha, envLookup_append]
    have hnone : envLookup l k = none := by
      apply envLookup_eq_none_of_not_mem
      intro hmem
      obtain ⟨p, hp, hk⟩ := List.mem_map.mp hmem
      exact ha (List.any_eq_true.mpr ⟨p, hp, by simpa using hk⟩)
    rw [hnone, Option.none_or, envLookup_singleton_self]

theorem envLookup_setKey_other (l : List (String × String)) (k v k' : String)
    (h : k' ≠ k) : envLookup (setKey l k v) k' = envLookup l k' := by
  unfold setKey
  by_cases ha : l.any (fun p => p.1 = k) = true
  · rw [if_pos ha]
    exact envLookup_map_other l k v k' h
  · rw [if_neg ha, envLookup_append, envLookup_singleton_other k v k' h, Option.or_none]

theorem envLookup_jsSpread (base : List (String × String)) (k v : String) :
    ∀ e : List (String × String), (e.map Prod.fst).Nodup → envLookup e k = some v →
      envLookup (jsSpread base e) k = some v := by
  intro e
  induction e using List.reverseRecOn with
  | nil => intro _ hv; simp [envLookup] at hv
  | append_singleton t p ih =>
    rcases p with ⟨pk, pv⟩
    intro hnd hv
    have hnd' : (t.map Prod.fst).Nodup ∧ pk ∉ t.map Prod.fst := by
      rw [List.map_append, List.nodup_append] at hnd
      refine ⟨hnd.1, fun hm => ?_⟩
      exact hnd.2.2 hm (by simp)
    rw [jsSpread, List.foldl_append, List.foldl_cons, List.foldl_nil]
    rw [show setKey (List.foldl (fun acc q => setKey acc q.1 q.2) base t) (pk, pv).1 (pk, pv).2 =
      setKey (jsSpread base t) pk pv from rfl]
    by_cases hk : pk = k
    · subst hk
      have hnone : envLookup t pk = none :=
        envLookup_eq_none_of_not_mem hnd'.2
      rw [envLookup_append, hnone, Option.none_or, envLookup_singleton_self] at hv
      have hv2 : pv = v := by simpa using hv
      rw [← hv2]
      exact envLookup_setKey_self _ _ _
    · have hv' : envLookup t k = some v := by
        rw [envLookup_append, envLookup_singleton_other pk pv k (fun he => hk he.symm),
          Option.or_none] at hv
        exact hv
      rw [envLookup_setKey_other _ _ _ _ (fun he => hk he.symm)]
      exact ih hnd'.1 hv'

theorem finishRun_commands_shape (exec : String → ExecResult) (priorCmds : List String)
    (command successStatus : String) :
    ∃ rest, (finishRun exec priorCmds command successStatus).commands =
      priorCmds ++ command :: rest := by
  by_cases h : (exec command).code ≠ 0
  · exact ⟨[], by simp [finishRun, h]⟩
  · exact ⟨["pm2 save"], by simp [finishRun, h]⟩

theorem finishRun_mem_command (exec : String → ExecResult) (priorCmds : List String)
    (command successStatus : String) :
    command ∈ (finishRun exec priorCmds command successStatus).commands := by
  obtain ⟨rest, h⟩ := finishRun_commands_shape exec priorCmds command successStatus
  rw [h]
  exact List.mem_append_right _ (List.mem_cons_self _ _)

theorem resolveEcosystemFile_noPath_cmds (exec : String → ExecResult)
    (eco : EcosystemSetting) (w : String) :
    (resolveEcosystemFile exec eco none w).2 = [] := by
  rcases eco with b | s
  · cases b <;> simp [resolveEcosystemFile, truthyStr]
  · unfold resolveEcosystemFile
    by_cases h : s = "auto" <;> simp [h, truthyStr]

theorem verifyLoop_polls_le (g : Nat → PM2Result) (retries : Nat) :
    ∀ fuel i, (verifyLoop g retries i fuel).polls ≤ fuel := by
  intro fuel
  induction fuel with
  | zero => intro i; simp [verifyLoop]
  | succ n ih =>
    intro i
    simp only [verifyLoop]
    by_cases h : isOnline (g i) = true
    · simp [h]
    · simp only [h, if_false, Bool.false_eq_true]
      exact Nat.succ_le_succ (ih (i + 1))

theorem verifyLoop_polls_pos (g : Nat → PM2Result) (retries : Nat) :
    ∀ fuel i, 0 < fuel → 1 ≤ (verifyLoop g retries i fuel).polls := by
  intro fuel
  cases fuel with
  | zero => intro i h; omega
  | succ n =>
    intro i _
    simp only [verifyLoop]
    by_cases h : isOnline (g i) = true
    · simp [h]
    · simp only [h, if_false, Bool.false_eq_true]
      omega

theorem verifyLoop_delays (g : Nat → PM2Result) (retries : Nat) :
    ∀ fuel i, (verifyLoop g retries i fuel).delays =
      (verifyLoop g retries i fuel).polls - 1 := by
  intro fuel
  induction fuel with
  | zero => intro i; simp [verifyLoop]
  | succ n ih =>
    intro i
    simp only [verifyLoop]
    by_cases h : isOnline (g i) = true
    · simp [h]
    · simp only [h, if_false, Bool.false_eq_true]
      cases n with
      | zero => simp [verifyLoop]
      | succ m =>
        have h1 := ih (i + 1)
        have h2 := verifyLoop_polls_pos g retries (m + 1) (i + 1) (by omega)
        simp only [show (0 : Nat) < m + 1 from by omega, if_pos]
        omega

theorem verifyLoop_success_iff (g : Nat → PM2Result) (retries : Nat) :
    ∀ fuel i, ((verifyLoop g retries i fuel).result.success = true ↔
      ∃ j, j < fuel ∧ isOnline (g (i + j)) = true) := by
  intro fuel
  induction fuel with
  | zero =>
    intro i
    simp [verifyLoop]
  | succ n ih =>
    intro i
    simp only [verifyLoop]
    by_cases h : isOnline (g i) = true
    · simp only [h, if_true]
      constructor
      · intro _
        exact ⟨0, by omega, by simpa using h⟩
      · intro _
        trivial
    · simp only [h, if_false, Bool.false_eq_true]
      rw [ih (i + 1)]
      constructor
      · rintro ⟨j, hj, hon⟩
        refine ⟨j + 1, by omega, ?_⟩
        rw [show i + (j + 1) = i + 1 + j from by omega]
        exact hon
      · rintro ⟨j, hj, hon⟩
        cases j with
        | zero =>
          rw [show i + 0 = i from by omega] at hon
          exact absurd hon h
        | succ m =>
          refine ⟨m, by omega, ?_⟩
          rw [show i + 1 + m = i + (m + 1) from by omega]
          exact hon

theorem verifyLoop_fail_polls (g : Nat → PM2Result) (retries : Nat) :
    ∀ fuel i, (verifyLoop g retries i fuel).result.success = false →
      (verifyLoop g retries i fuel).polls = fuel := by
  intro fuel
  induction fuel with
  | zero => intro i _; simp [verifyLoop]
  | succ n ih =>
    intro i hfail
    simp only [verifyLoop] at hfail ⊢
    by_cases h : isOnline (g i) = true
    · simp [h] at hfail
    · simp only [h, if_false, Bool.false_eq_true] at hfail ⊢
      have := ih (i + 1) hfail
      omega

theorem verifyLoop_first_online (g : Nat → PM2Result) (retries : Nat) :
    ∀ fuel i, (verifyLoop g retries i fuel).result.success = true →
      isOnline (g (i + ((verifyLoop g retries i fuel).polls - 1))) = true ∧
      ∀ j < (verifyLoop g retries i fuel).polls - 1, isOnline (g (i + j)) = false := by
  intro fuel
  induction fuel with
  | zero => intro i h; simp [verifyLoop] at h
  | succ n ih =>
    intro i hsucc
    simp only [verifyLoop] at hsucc ⊢
    by_cases h : isOnline (g i) = true
    · simp only [h, if_true] at hsucc ⊢
      refine ⟨by simpa using h, ?_⟩
      intro j hj
      exact absurd hj (by omega)
    · simp only [h, if_false, Bool.false_eq_true] at hsucc ⊢
      have hrest := ih (i + 1) hsucc
      have hpos : 1 ≤ (verifyLoop g retries (i + 1) n).polls := by
        cases n with
        | zero => simp [verifyLoop] at hsucc
        | succ m => exact verifyLoop_polls_pos g retries (m + 1) (i + 1) (by omega)
      constructor
      · rw [show i + ((verifyLoop g retries (i + 1) n).polls + 1 - 1) =
          i + 1 + ((verifyLoop g retries (i + 1) n).polls - 1) from by omega]
        exact hrest.1
      · intro j hj
        cases j with
        | zero =>
          rw [show i + 0 = i from by omega]
          exact Bool.not_eq_true _ ▸ (by simpa using h)
        | succ m =>
          rw [show i + (m + 1) = i + 1 + m from by omega]
          exact hrest.2 m (by omega)

theorem sftpLoop_spec (writeOk : Nat → Bool) :
    ∀ n i t, sftpLoop writeOk i t n =
      { method := "sftp",
        filesTransferred := t + (List.range n).countP (fun j => writeOk (i + j)),
        success := true } := by
  intro n
  induction n with
  | zero => intro i t; simp [sftpLoop]
  | succ m ih =>
    intro i t
    have hcnt : (List.range (m + 1)).countP (fun j => writeOk (i + j)) =
        (if writeOk i then 1 else 0) +
          (List.range m).countP (fun j => writeOk (i + 1 + j)) := by
      rw [List.range_succ_eq_map, List.countP_cons, List.countP_map]
      have h1 : ((fun j => writeOk (i + j)) ∘ Nat.succ) = (fun j => writeOk (i + 1 + j)) := by
        funext j
        show writeOk (i + Nat.succ j) = writeOk (i + 1 + j)
        congr 1
        omega
      rw [h1]
      simp only [Nat.add_zero]
      by_cases h : writeOk i
      · simp only [h, if_true]
        omega
      · simp only [h, Bool.false_eq_true, if_false]
        omega
    simp only [sftpLoop]
    rw [ih (i + 1) (if writeOk i then t + 1 else t), hcnt]
    by_cases h : writeOk i
    · simp only [h, if_true, UploadResult.mk.injEq, true_and, and_true]
      omega
    · simp only [h, Bool.false_eq_true, if_false, UploadResult.mk.injEq, true_and, and_true]
      omega

theorem ecosystemStartCmd_has_start (w p f a : String) :
    strIncludes (ecosystemStartCmd w p f a) "pm2 start " = true := by
  unfold ecosystemStartCmd
  exact strIncludes_append_right _ (strIncludes_self_append _ _)

theorem standaloneStartCmd_has_start (w p a : String) :
    strIncludes (standaloneStartCmd w p a) "pm2 start " = true := by
  unfold standaloneStartCmd
  exact strIncludes_append_right _ (strIncludes_self_append _ _)

theorem reloadApp_start_command (exec : String → ExecResult)
    (parseNames : String → Option (List String)) (cfg : PM2Config) (remotePath : Option String)
    (hx : (match parseNames (exec "pm2 jlist").stdout with
           | some names => names.contains cfg.appName
           | none => false) = false)
    (ht : truthyStr remotePath = true) :
    ∃ c ∈ (reloadApp exec parseNames cfg remotePath).commands,
      strIncludes c "pm2 start " = true := by
  unfold reloadApp
  simp only [hx, Bool.and_false, Bool.false_eq_true, if_false, ht, not_true_eq_false]
  rcases h : (resolveEcosystemFile exec cfg.ecosystem remotePath (winPathOf remotePath)).1
    with _ | f
  · refine ⟨standaloneStartCmd (winPathOf remotePath)
      (envPrefixOf (envWithPort cfg.port cfg.env) (isWindowsPath remotePath)) cfg.appName,
      finishRun_mem_command _ _ _ _, standaloneStartCmd_has_start _ _ _⟩
  · dsimp only
    by_cases hf : f ≠ ""
    · rw [if_pos hf]
      refine ⟨ecosystemStartCmd (winPathOf remotePath)
        (envPrefixOf cfg.env (isWindowsPath remotePath)) f cfg.appName,
        finishRun_mem_command _ _ _ _, ecosystemStartCmd_has_start _ _ _ _⟩
    · rw [if_neg hf]
      refine ⟨standaloneStartCmd (winPathOf remotePath)
        (envPrefixOf (envWithPort cfg.port cfg.env) (isWindowsPath remotePath)) cfg.appName,
        finishRun_mem_command _ _ _ _, standaloneStartCmd_has_start _ _ _⟩

/-! ## Claim theorems -/

/-- C2: for every service descriptor whose service name is absent from the
process table, `reloadApp` invoked with no remotePath returns a failure
outcome whose error message cites the missing remotePath, and no remote
start command is executed before returning (only the probe `pm2 jlist` was
issued). -/
theorem C2_missing_remotePath (exec : String → ExecResult)
    (parseNames : String → Option (List String)) (cfg : PM2Config) (names : List String)
    (hp : parseNames (exec "pm2 jlist").stdout = some names)
    (hn : cfg.appName ∉ names) :
    (reloadApp exec parseNames cfg none).result.success = false ∧
    (reloadApp exec parseNames cfg none).result.error = some (notFoundMsg cfg.appName) ∧
    strIncludes (notFoundMsg cfg.appName) "no remotePath provided" = true ∧
    (reloadApp exec parseNames cfg none).commands = ["pm2 jlist"] ∧
    ∀ c ∈ (reloadApp exec parseNames cfg none).commands,
      strIncludes c "pm2 start" = false := by
  have hc : names.contains cfg.appName = false := by simpa using hn
  have hred : reloadApp exec parseNames cfg none =
      { result := { success := false, error := some (notFoundMsg cfg.appName) },
        commands := ["pm2 jlist"] } := by
    unfold reloadApp
    simp [hp, hc, truthyStr, resolveEcosystemFile_noPath_cmds]
    intro _ hmem
    exact absurd hmem hn
  refine ⟨by rw [hred], by rw [hred], ?_, by rw [hred], ?_⟩
  · unfold notFoundMsg
    exact strIncludes_append_right _ (strIncludes_self_append _ _)
  · rw [hred]
    intro c hc2
    simp only [List.mem_singleton] at hc2
    subst hc2
    decide

/-- Witness for C2: a concrete run with an empty process table and no
remotePath fails as the theorem states. -/
theorem C2_missing_remotePath_witness :
    ((fun _ => (some [] : Option (List String)))
        (((fun _ => ({ stdout := "[]", stderr := "", code := 0 } : ExecResult)) "pm2 jlist").stdout)
      = some []) ∧
    ("app" ∉ ([] : List String)) ∧
    (reloadApp (fun _ => { stdout := "[]", stderr := "", code := 0 })
      (fun _ => some []) { appName := "app" } none).result.success = false ∧
    (reloadApp (fun _ => { stdout := "[]", stderr := "", code := 0 })
      (fun _ => some []) { appName := "app" } none).commands = ["pm2 jlist"] := by
  have h := C2_missing_remotePath (fun _ => { stdout := "[]", stderr := "", code := 0 })
    (fun _ => some []) { appName := "app" } [] rfl (by simp)
  exact ⟨rfl, by simp, h.1, h.2.2.2.1⟩

/-- C5: for every process-table query whose output is malformed (the parse
oracle returns none), `reloadApp` behaves exactly as though the service
does not exist — identically to a run over an empty process table — and,
when a truthy remotePath was supplied, it goes on to issue a start
command instead of propagating a parse error. -/
theorem C5_parse_fallback_start (exec : String → ExecResult)
    (parseNames : String → Option (List String)) (cfg : PM2Config) (remotePath : Option String)
    (hp : parseNames (exec "pm2 jlist").stdout = none) :
    reloadApp exec parseNames cfg remotePath =
      reloadApp exec (fun _ => some []) cfg remotePath ∧
    (truthyStr remotePath = true →
      ∃ c ∈ (reloadApp exec parseNames cfg remotePath).commands,
        strIncludes c "pm2 start " = true) := by
  constructor
  · unfold reloadApp
    simp [hp]
  · intro ht
    exact reloadApp_start_command exec parseNames cfg remotePath (by rw [hp]) ht

/-- Witness for C5: a concrete run whose `pm2 jlist` output fails to parse
equals the empty-table run and issues a start command. -/
theorem C5_parse_fallback_start_witness :
    ((fun _ => (none : Option (List String)))
        (((fun _ => ({ stdout := "garbage", stderr := "", code := 0 } : ExecResult)) "pm2 jlist").stdout)
      = none) ∧
    reloadApp (fun _ => { stdout := "garbage", stderr := "", code := 0 })
        (fun _ => none) { appName := "app" } (some "/srv/app") =
      reloadApp (fun _ => { stdout := "garbage", stderr := "", code := 0 })
        (fun _ => some []) { appName := "app" } (some "/srv/app") ∧
    ∃ c ∈ (reloadApp (fun _ => { stdout := "garbage", stderr := "", code := 0 })
        (fun _ => none) { appName := "app" } (some "/srv/app")).commands,
      strIncludes c "pm2 start " = true := by
  have h := C5_parse_fallback_start (fun _ => { stdout := "garbage", stderr := "", code := 0 })
    (fun _ => none) { appName := "app" } (some "/srv/app") rfl
  exact ⟨rfl, h.1, h.2 (by decide)⟩

/-- C9: in the standalone start branch (service absent, ecosystem
disabled), when both a fixed port and an env mapping containing a PORT key
are configured, the merged environment injected into the start command
carries the PORT value of the mapping — the spread after the port default wins
— and the issued command is built from exactly that merged environment. -/
theorem C9_port_env_precedence (exec : String → ExecResult)
    (parseNames : String → Option (List String)) (appName rp v : String) (reload : Bool)
    (prt : Nat) (e : List (String × String)) (names : List String)
    (hrp : rp ≠ "") (hprt : prt ≠ 0)
    (hnodup : (e.map Prod.fst).Nodup) (hv : envLookup e "PORT" = some v)
    (hp : parseNames (exec "pm2 jlist").stdout = some names)
    (hn : appName ∉ names) :
    envLookup (jsSpread [("PORT", toString prt)] e) "PORT" = some v ∧
    ∃ rest,
      (reloadApp exec parseNames
          { appName := appName, ecosystem := .bool false, reload := reload,
            port := some prt, env := some e } (some rp)).commands =
        "pm2 jlist" ::
          standaloneStartCmd (toWinPath rp)
            (envPrefixOf (some (jsSpread [("PORT", toString prt)] e))
              (isWindowsPath (some rp))) appName :: rest := by
  constructor
  · exact envLookup_jsSpread _ _ _ e hnodup hv
  · have hc : names.contains appName = false := by simpa using hn
    have ht : truthyStr (some rp) = true := by simp [truthyStr, hrp]
    unfold reloadApp
    simp only [hp, hc, Bool.and_false, Bool.false_eq_true, if_false, ht,
      not_true_eq_false]
    dsimp only [resolveEcosystemFile]
    simp only [winPathOf, if_neg hrp, envWithPort, if_neg hprt, Option.getD]
    rw [show (if truthyStr none = true then "PM2 app started (using ecosystem.config.js)"
      else "PM2 app started") = "PM2 app started" from rfl]
    obtain ⟨rest, hsh⟩ := finishRun_commands_shape exec
      (([] : List String) ++ ["pm2 jlist"])
      (standaloneStartCmd (toWinPath rp)
        (envPrefixOf (some (jsSpread [("PORT", toString prt)] e)) (isWindowsPath (some rp)))
        appName)
      "PM2 app started"
    exact ⟨rest, by rw [hsh]; rfl⟩

/-- C4: with retries = 3 and delay 2000 ms, a status sequence
[starting, starting, online] verifies successfully after exactly 3 polls
with at least 4000 ms of inter-poll delay; a sequence never reading online
fails after exactly 3 polls; in general the loop polls at most the retry
count, sleeps the fixed delay exactly between consecutive polls, and
returns success on the first poll that reads online. -/
theorem C4_verify_bounded_retry :
    ((verifyAppRunning (fun i =>
        if i < 2 then { success := true, status := some "starting" }
        else { success := true, status := some "online" }) 3 2000).result.success = true ∧
     (verifyAppRunning (fun i =>
        if i < 2 then { success := true, status := some "starting" }
        else { success := true, status := some "online" }) 3 2000).polls = 3 ∧
     (verifyAppRunning (fun i =>
        if i < 2 then { success := true, status := some "starting" }
        else { success := true, status := some "online" }) 3 2000).delays * 2000 ≥ 4000) ∧
    (∀ g : Nat → PM2Result, (∀ i, isOnline (g i) = false) →
      (verifyAppRunning g 3 2000).result.success = false ∧
      (verifyAppRunning g 3 2000).polls = 3) ∧
    (∀ (g : Nat → PM2Result) (retries delayMs : Nat),
      (verifyAppRunning g retries delayMs).polls ≤ retries ∧
      (verifyAppRunning g retries delayMs).delays =
        (verifyAppRunning g retries delayMs).polls - 1 ∧
      ((verifyAppRunning g retries delayMs).result.success = true →
        isOnline (g ((verifyAppRunning g retries delayMs).polls - 1)) = true ∧
        ∀ j < (verifyAppRunning g retries delayMs).polls - 1,
          isOnline (g j) = false)) := by
  refine ⟨⟨by decide, by decide, by decide⟩, ?_, ?_⟩
  · intro g hg
    have hsucc : (verifyLoop g 3 0 3).result.success = false := by
      by_contra hne
      have htrue : (verifyLoop g 3 0 3).result.success = true := by
        cases hb : (verifyLoop g 3 0 3).result.success
        · exact absurd hb hne
        · rfl
      obtain ⟨j, _, hon⟩ := (verifyLoop_success_iff g 3 3 0).mp htrue
      rw [Nat.zero_add] at hon
      rw [hg j] at hon
      exact Bool.false_ne_true hon
    exact ⟨hsucc, verifyLoop_fail_polls g 3 3 0 hsucc⟩
  · intro g retries delayMs
    refine ⟨verifyLoop_polls_le g retries retries 0,
      verifyLoop_delays g retries retries 0, ?_⟩
    intro hsucc
    have h := verifyLoop_first_online g retries retries 0 hsucc
    constructor
    · have h1 := h.1
      rw [Nat.zero_add] at h1
      exact h1
    · intro j hj
      have h2 := h.2 j hj
      rw [Nat.zero_add] at h2
      exact h2

/-- Witness for C4: the never-online branch applied to a constant
"starting" status sequence. -/
theorem C4_verify_bounded_retry_witness :
    (verifyAppRunning (fun _ => { success := true, status := some "starting" })
      3 2000).result.success = false ∧
    (verifyAppRunning (fun _ => { success := true, status := some "starting" })
      3 2000).polls = 3 :=
  C4_verify_bounded_retry.2.1 (fun _ => { success := true, status := some "starting" })
    (fun _ => rfl)

/-- C10: verify with retries = 0 fails immediately with zero polls and
zero delays; in general it performs at most `retries` polls and at most
`retries - 1` delays. -/
theorem C10_verify_zero_retries :
    (∀ (g : Nat → PM2Result) (delayMs : Nat),
      verifyAppRunning g 0 delayMs =
        { result :=
            { success := false,
              error := some "Application did not start within 0 retries" },
          polls := 0, delays := 0 }) ∧
    (∀ (g : Nat → PM2Result) (retries delayMs : Nat),
      (verifyAppRunning g retries delayMs).polls ≤ retries ∧
      (verifyAppRunning g retries delayMs).delays ≤ retries - 1) := by
  constructor
  · intro g delayMs
    rfl
  · intro g retries delayMs
    have h1 := verifyLoop_delays g retries retries 0
    have h2 := verifyLoop_polls_le g retries retries 0
    refine ⟨h2, ?_⟩
    unfold verifyAppRunning
    omega

/-- C3: the SFTP bulk copy fails only when no local file matched the
include patterns or the session could not be established; with a live
session and a nonempty file list every per-file write error only skips
that file — the loop continues, the outcome reports success, and the
transferred count is exactly the number of files whose write succeeded. -/
theorem C3_sftp_best_effort (files : List (String × String)) (session : SftpSession)
    (writeOk : Nat → Bool) :
    ((uploadWithSFTP files session writeOk).success = false ↔
      files = [] ∨ session ≠ .ready) ∧
    (files ≠ [] → session = .ready →
      (uploadWithSFTP files session writeOk).success = true ∧
      (uploadWithSFTP files session writeOk).filesTransferred =
        (List.range files.length).countP (fun j => writeOk j) ∧
      (uploadWithSFTP files session writeOk).filesTransferred ≤ files.length) := by
  have hloop := sftpLoop_spec writeOk files.length 0 0
  have hcnt : (List.range files.length).countP (fun j => writeOk (0 + j)) =
      (List.range files.length).countP (fun j => writeOk j) := by
    apply List.countP_congr
    intro j _
    rw [Nat.zero_add]
  by_cases he : files = []
  · subst he
    simp [uploadWithSFTP]
  · rcases session with m | m | _
    · simp [uploadWithSFTP, he]
    · simp [uploadWithSFTP, he]
    · have hne : files.isEmpty = false := by
        simpa [List.isEmpty_iff] using he
      constructor
      · simp only [uploadWithSFTP, hne, Bool.false_eq_true, if_false]
        rw [hloop, hcnt]
        simp [he]
      · intro _ _
        simp only [uploadWithSFTP, hne, Bool.false_eq_true, if_false]
        rw [hloop, hcnt]
        refine ⟨rfl, Nat.zero_add _, ?_⟩
        have h3 : (List.range files.length).countP (fun j => writeOk j) ≤
            (List.range files.length).length := List.countP_le_length _
        rw [List.length_range] at h3
        show 0 + (List.range files.length).countP (fun j => writeOk j) ≤ files.length
        omega

/-- Witness for C3: three files over a live session, the middle write
failing, transfers exactly two files and still succeeds. -/
theorem C3_sftp_best_effort_witness :
    ((["a", "b", "c"].map (fun s => (s, "/srv/" ++ s))) ≠ []) ∧
    (uploadWithSFTP (["a", "b", "c"].map (fun s => (s, "/srv/" ++ s))) .ready
      (fun i => i ≠ 1)).success = true ∧
    (uploadWithSFTP (["a", "b", "c"].map (fun s => (s, "/srv/" ++ s))) .ready
      (fun i => i ≠ 1)).filesTransferred = 2 := by
  have h := (C3_sftp_best_effort (["a", "b", "c"].map (fun s => (s, "/srv/" ++ s))) .ready
    (fun i => i ≠ 1)).2 (by decide) rfl
  exact ⟨by decide, h.1, by rw [h.2.1]; decide⟩

/-- C1 counterexample: the claim makes the selection independent of every
credential field beyond the four booleans, but with rsync and sshpass
available, delta-sync preferred, a password present and no key path, the
code still falls back to SFTP when an inline private key is also present,
while the rule given by the spec selects delta-sync via the helper. -/
theorem C1_counterexample :
    selectUploadMethod true true true
      { host := "h", user := "u", port := 22, privateKeyPath := none,
        privateKey := some "KEY", password := some "pw" } = .sftp ∧
    specSelectMethod true false true true true = .rsyncSshpass ∧
    UploadMethod.sftp ≠ UploadMethod.rsyncSshpass := by
  exact ⟨rfl, rfl, by decide⟩

/-- C1 (amended): the selector follows the ordered rule of the spec once
"password credential present" is read as password-only authentication —
a password present with neither an inline key nor a key path. With that
reading the selected method is a pure function of the listed booleans for
every credential combination. -/
theorem C1_selection_amended (useRsync rsyncAvailable sshpassAvailable : Bool)
    (ssh : SSHConfig) :
    selectUploadMethod useRsync rsyncAvailable sshpassAvailable ssh =
      specSelectMethod rsyncAvailable (truthyStr ssh.privateKeyPath)
        (truthyStr ssh.password && !truthyStr ssh.privateKey &&
          !truthyStr ssh.privateKeyPath)
        sshpassAvailable useRsync := by
  unfold selectUploadMethod specSelectMethod
  cases hk : truthyStr ssh.privateKeyPath <;>
    cases hp : truthyStr ssh.password <;>
      cases hi : truthyStr ssh.privateKey <;>
        cases useRsync <;> cases rsyncAvailable <;> cases sshpassAvailable <;> rfl

/-- Witness for C9: port 3000 configured while the env maps PORT to 8080;
the merged environment keeps 8080 and the issued start command is built
from it. -/
theorem C9_port_env_precedence_witness :
    envLookup (jsSpread [("PORT", toString 3000)] [("PORT", "8080")]) "PORT" = some "8080" ∧
    ∃ rest,
      (reloadApp (fun _ => { stdout := "[]", stderr := "", code := 0 })
          (fun _ => some [])
          { appName := "app", ecosystem := .bool false, reload := true,
            port := some 3000, env := some [("PORT", "8080")] } (some "/srv/app")).commands =
        "pm2 jlist" ::
          standaloneStartCmd (toWinPath "/srv/app")
            (envPrefixOf (some (jsSpread [("PORT", toString 3000)] [("PORT", "8080")]))
              (isWindowsPath (some "/srv/app"))) "app" :: rest :=
  C9_port_env_precedence (fun _ => { stdout := "[]", stderr := "", code := 0 })
    (fun _ => some []) "app" "/srv/app" "8080" true 3000 [("PORT", "8080")] []
    (by decide) (by decide) (by decide) (by decide) rfl (by simp)

/-- C6 counterexample: with the Unix-shaped remote path "/var/www/app" the
OS inference yields non-Windows (so Unix env-prefix syntax is used), yet
the issued start command begins with the Windows directory-change syntax
`cd /d "` over a backslash-converted path — directory-change syntax does
not match the inferred target OS family. -/
theorem C6_counterexample :
    isWindowsPath (some "/var/www/app") = false ∧
    ((reloadApp (fun _ => { stdout := "", stderr := "", code := 0 })
        (fun _ => some [])
        { appName := "app", ecosystem := .bool false, reload := true,
          port := none, env := some [("A", "b c")] }
        (some "/var/www/app")).commands.any
      (fun c => strStarts c "cd /d \"")) = true := by
  exact ⟨rfl, by decide⟩

/-- C6 (amended): every injected environment value containing a
shell-significant character is escaped (quote-wrapped with inner quotes
backslash-escaped), and the environment-variable prefix syntax is selected
by the OS family inferred from the remote path (`set K=v && ` for Windows
versus `K=v ` for Unix) and is the prefix used in the issued
reload/restart command; the directory-change syntax of start commands,
however, is always the Windows form `cd /d "…"` regardless of the
inferred OS family. -/
theorem C6_command_syntax_amended :
    (∀ v : String, v.data.any shellSignificant = true →
      escapeShellValue v = "\"" ++ escQuotes v ++ "\"") ∧
    (∀ k val : String,
      envPrefixOf (some [(k, val)]) true =
        "set " ++ k ++ "=" ++ escapeShellValue val ++ " && " ∧
      envPrefixOf (some [(k, val)]) false =
        k ++ "=" ++ escapeShellValue val ++ " ") ∧
    (∀ (exec : String → ExecResult) (parseNames : String → Option (List String))
        (cfg : PM2Config) (remotePath : Option String) (names : List String),
      cfg.ecosystem = .bool false →
      parseNames (exec "pm2 jlist").stdout = some names →
      (exec "pm2 jlist").code = 0 →
      cfg.appName ∈ names →
      ∃ rest, (reloadApp exec parseNames cfg remotePath).commands =
        "pm2 jlist" ::
          reloadCmd (envPrefixOf cfg.env (isWindowsPath remotePath))
            cfg.reload cfg.appName :: rest) ∧
    (∀ w p a : String, strStarts (standaloneStartCmd w p a) "cd /d \"" = true) ∧
    (∀ w p f a : String, strStarts (ecosystemStartCmd w p f a) "cd /d \"" = true) := by
  refine ⟨?_, ?_, ?_, ?_, ?_⟩
  · intro v hv
    unfold escapeShellValue
    rw [if_pos hv]
  · intro k val
    exact ⟨rfl, rfl⟩
  · intro exec parseNames cfg remotePath names heco hp hcode hmem
    have hc : names.contains cfg.appName = true := by simpa using hmem
    have hd : decide ((exec "pm2 jlist").code = 0) = true := by simp [hcode]
    unfold reloadApp
    rw [heco]
    dsimp only [resolveEcosystemFile]
    simp only [hp, hc, hd, Bool.and_true]
    rw [if_pos trivial]
    obtain ⟨rest, hsh⟩ := finishRun_commands_shape exec
      (([] : List String) ++ ["pm2 jlist"])
      (reloadCmd (envPrefixOf cfg.env (isWindowsPath remotePath)) cfg.reload cfg.appName)
      "PM2 reload completed"
    exact ⟨rest, by rw [hsh]; rfl⟩
  · intro w p a
    unfold standaloneStartCmd
    exact strStarts_append_of _ _ _ (strStarts_append_of _ _ _
      (strStarts_append_of _ _ _ (strStarts_self_append _ _)))
  · intro w p f a
    unfold ecosystemStartCmd
    exact strStarts_append_of _ _ _ (strStarts_append_of _ _ _
      (strStarts_append_of _ _ _ (strStarts_self_append _ _)))

/-- Witness for C6 (amended): a value with a space gets quote-wrapped, and
a concrete reload run over a Windows-mount path issues the reload command
with the Windows-selected env prefix. -/
theorem C6_command_syntax_amended_witness :
    escapeShellValue "b c" = "\"" ++ escQuotes "b c" ++ "\"" ∧
    ∃ rest,
      (reloadApp (fun _ => { stdout := "[]", stderr := "", code := 0 })
          (fun _ => some ["app"])
          { appName := "app", ecosystem := .bool false, reload := true,
            port := none, env := some [("A", "b c")] }
          (some "/mnt/d/apps/web")).commands =
        "pm2 jlist" ::
          reloadCmd (envPrefixOf (some [("A", "b c")])
              (isWindowsPath (some "/mnt/d/apps/web"))) true "app" :: rest := by
  refine ⟨C6_command_syntax_amended.1 "b c" (by decide), ?_⟩
  exact C6_command_syntax_amended.2.2.1 (fun _ => { stdout := "[]", stderr := "", code := 0 })
    (fun _ => some ["app"])
    { appName := "app", ecosystem := .bool false, reload := true,
      port := none, env := some [("A", "b c")] }
    (some "/mnt/d/apps/web") ["app"] rfl rfl rfl (by simp)

/-- C7: when reconciliation succeeds but the verification poll never
observes "online" within its budget, the restart step still reports
success, and a pipeline whose other steps succeed therefore reports
overall success — verification failure is a soft failure. -/
theorem C7_verification_soft_failure (exec : String → ExecResult)
    (parseNames : String → Option (List String)) (getStatus : Nat → PM2Result)
    (cfg : PM2Config) (remotePath : Option String)
    (buildRes uploadRes prepareRes : StepOutcome) (standalone prepareLocally : Bool)
    (hreload : (reloadApp exec parseNames cfg remotePath).result.success = true)
    (hverify : ∀ i, isOnline (getStatus i) = false)
    (hb : buildRes.success = true) (hu : uploadRes.success = true)
    (hprep : prepareRes.success = true) :
    (verifyAppRunning getStatus 3 2000).result.success = false ∧
    runRestart exec parseNames getStatus cfg remotePath = { success := true } ∧
    (runShip false standalone prepareLocally buildRes uploadRes prepareRes
        (runRestart exec parseNames getStatus cfg remotePath)).1.success = true := by
  have hvfail : (verifyAppRunning getStatus 3 2000).result.success = false := by
    by_contra hne
    have htrue : (verifyLoop getStatus 3 0 3).result.success = true := by
      cases hb2 : (verifyLoop getStatus 3 0 3).result.success
      · exact absurd hb2 hne
      · rfl
    obtain ⟨j, _, hon⟩ := (verifyLoop_success_iff getStatus 3 3 0).mp htrue
    rw [Nat.zero_add, hverify j] at hon
    exact Bool.false_ne_true hon
  have hrr : runRestart exec parseNames getStatus cfg remotePath = { success := true } := by
    simp [runRestart, hreload]
  refine ⟨hvfail, hrr, ?_⟩
  rw [hrr]
  by_cases hsp : (standalone && !prepareLocally) = true <;>
    simp [runShip, hb, hu, hprep, hsp]

/-- Witness for C7: a concrete run whose reload succeeds while every
status poll reads "errored" still yields a successful restart step and a
successful pipeline. -/
theorem C7_verification_soft_failure_witness :
    runRestart (fun _ => { stdout := "[]", stderr := "", code := 0 })
        (fun _ => some ["app"]) (fun _ => { success := true, status := some "errored" })
        { appName := "app" } none = { success := true } ∧
    (runShip false true true { success := true } { success := true } { success := true }
        (runRestart (fun _ => { stdout := "[]", stderr := "", code := 0 })
          (fun _ => some ["app"]) (fun _ => { success := true, status := some "errored" })
          { appName := "app" } none)).1.success = true := by
  have h := C7_verification_soft_failure (fun _ => { stdout := "[]", stderr := "", code := 0 })
    (fun _ => some ["app"]) (fun _ => { success := true, status := some "errored" })
    { appName := "app" } none { success := true } { success := true } { success := true }
    true true (by decide) (fun _ => rfl) rfl rfl rfl
  exact ⟨h.2.1, h.2.2⟩

/-- C8: the orchestrator halts at the first failing step and records every
step that ran: a build failure yields an aggregate with only the build
step recorded, success = false, the build error surfaced, and no later
step invoked; upload, prepare and restart failures likewise stop the
pipeline at that step with the error of that step. -/
theorem C8_pipeline_short_circuit (standalone prepareLocally : Bool)
    (buildRes uploadRes prepareRes restartRes : StepOutcome) :
    (buildRes.success = false →
      runShip false standalone prepareLocally buildRes uploadRes prepareRes restartRes =
        ({ success := false, steps := { build := some buildRes }, error := buildRes.error },
          ["build"])) ∧
    (buildRes.success = true → uploadRes.success = false →
      runShip false standalone prepareLocally buildRes uploadRes prepareRes restartRes =
        ({ success := false,
           steps := { build := some buildRes, upload := some uploadRes },
           error := uploadRes.error },
          ["build", "upload"])) ∧
    (buildRes.success = true → uploadRes.success = true →
      (standalone && !prepareLocally) = true → prepareRes.success = false →
      runShip false standalone prepareLocally buildRes uploadRes prepareRes restartRes =
        ({ success := false,
           steps := { build := some buildRes, upload := some uploadRes,
                      prepare := some prepareRes },
           error := prepareRes.error },
          ["build", "upload", "prepare"])) ∧
    (buildRes.success = true → uploadRes.success = true → prepareRes.success = true →
      restartRes.success = false →
      (runShip false standalone prepareLocally buildRes uploadRes prepareRes
          restartRes).1.success = false ∧
      (runShip false standalone prepareLocally buildRes uploadRes prepareRes
          restartRes).1.error = restartRes.error ∧
      (runShip false standalone prepareLocally buildRes uploadRes prepareRes
          restartRes).1.steps.restart = some restartRes) := by
  refine ⟨?_, ?_, ?_, ?_⟩
  · intro hb
    simp [runShip, hb]
  · intro hb hu
    simp [runShip, hb, hu]
  · intro hb hu hsp hp
    simp [runShip, hb, hu, hsp, hp]
  · intro hb hu hp hr
    by_cases hsp : (standalone && !prepareLocally) = true <;>
      simp [runShip, hb, hu, hp, hr, hsp]

/-- Witness for C8: a failing build halts the pipeline with only the build
step recorded. -/
theorem C8_pipeline_short_circuit_witness :
    runShip false true true { success := false, error := some "exit code 1" }
        { success := true } { success := true } { success := true } =
      ({ success := false,
         steps := { build := some { success := false, error := some "exit code 1" } },
         error := some "exit code 1" },
        ["build"]) :=
  (C8_pipeline_short_circuit true true { success := false, error := some "exit code 1" }
    { success := true } { success := true } { success := true }).1 rfl

end Nextship
